import Mathlib

/-!
Shallow embedding of the GPU Charts API benchmark suite (`api_benchmark.py`)
covering the request executor, the worker scenario router, symbol discovery,
the statistics aggregation in `performance_benchmark`, the saved
`performance_summary` projection, the baseline/previous-run comparator in
`_compare_with_file`, and the `--compare-only` branch of `main`.

Latencies and metric values are modelled as rationals (`ℚ`): the script uses
Python floats only as exact carriers of measured values, and every claim in
scope is about ordering and exact index selection, not rounding.  The sample
standard deviation field (`latency_stdev`, a float square root) is omitted
from the model: no claim refers to it and its value is not rational.
-/

namespace ApiBenchmark

/-- Outcome record produced by `make_request` (api_benchmark.py lines 38-71):
status code, wall-clock latency in milliseconds, byte count, optional body,
optional error string. -/
structure RequestResult where
  status : Nat
  latency_ms : ℚ
  bytes : Nat
  content : Option (List Nat)
  error : Option String
deriving DecidableEq

/-- The three ways the `urllib.request.urlopen` call inside `make_request` can
resolve: a response whose body is fully read, an `HTTPError` carrying a status
code and reason, or any other exception (timeout, connection refused, DNS
failure, ...) carrying its message. -/
inductive UrlOpen where
  | success (code : Nat) (body : List Nat)
  | httpError (code : Nat) (reason : String)
  | exnFailure (msg : String)
deriving DecidableEq

/-- Model of `make_request` (lines 38-71).  `t_start` is the `perf_counter`
reading taken before the call and `t_end` the reading taken in whichever
branch completes; elapsed time is `(t_end - t_start) * 1000` milliseconds in
all three branches, exactly as in the source. -/
def make_request (r : UrlOpen) (t_start t_end : ℚ) : RequestResult :=
  match r with
  | .success code body =>
      { status := code, latency_ms := (t_end - t_start) * 1000, bytes := body.length,
        content := some body, error := none }
  | .httpError code reason =>
      { status := code, latency_ms := (t_end - t_start) * 1000, bytes := 0,
        content := none, error := some ("HTTP " ++ toString code ++ ": " ++ reason) }
  | .exnFailure msg =>
      { status := 0, latency_ms := (t_end - t_start) * 1000, bytes := 0,
        content := none, error := some msg }

/-- The four performance-test modes accepted by `performance_benchmark`
(`symbols`, `api`, `data`, `mixed`). -/
inductive Mode where
  | symbolsMode
  | apiMode
  | dataMode
  | mixedMode
deriving DecidableEq

/-- Which endpoint a worker request targets.  `dataUrl` carries the symbol
placed in the `/api/data` query string; the time window and column list are
fixed at the call site and carry no routing information. -/
inductive Route (α : Type) where
  | symbolsUrl
  | statusUrl
  | dataUrl (symbol : α)
deriving DecidableEq

/-- Model of the `worker` closure inside `performance_benchmark`
(lines 412-445): given the mode, the shared symbol list and the request index,
choose the URL for that request.  `none` models the `ZeroDivisionError` that
Python's `request_id % len(symbols)` would raise on an empty list; the symbol
list is generic in its element type because the discovered list may hold
non-string entries. -/
def workerRoute {α : Type} : Mode → List α → Nat → Option (Route α)
  | .symbolsMode, _, _ => some .symbolsUrl
  | .apiMode, _, request_id =>
      if request_id % 2 = 0 then some .symbolsUrl else some .statusUrl
  | .dataMode, symbols, request_id =>
      if h : symbols.length = 0 then none
      else some (.dataUrl (symbols.get
        ⟨request_id % symbols.length, Nat.mod_lt _ (Nat.pos_of_ne_zero h)⟩))
  | .mixedMode, symbols, request_id =>
      if request_id % 3 = 0 then some .symbolsUrl
      else if request_id % 3 = 1 then some .statusUrl
      else if h : symbols.length = 0 then none
      else some (.dataUrl (symbols.get
        ⟨request_id % symbols.length, Nat.mod_lt _ (Nat.pos_of_ne_zero h)⟩))

/-- An entry of an exchange's symbol list as returned by `/api/symbols`:
either a plain string (the current server format) or a JSON object, modelled
as an association list of string fields. -/
inductive SymEntry where
  | str (s : String)
  | obj (fields : List (String × String))
deriving DecidableEq

/-- Whether a symbol entry is a plain string. -/
def entryIsStr : SymEntry → Bool
  | .str _ => true
  | .obj _ => false

/-- Model of `symbol_info.get('symbol', symbol_info)` (line 375): calling
`.get` on a plain string raises `AttributeError`; on a dict it returns the
`symbol` field, or the dict itself when the field is absent. -/
def pyGetSymbol : SymEntry → Except String SymEntry
  | .str _ => .error "AttributeError: str object has no attribute get"
  | .obj fields =>
      .ok (match fields.lookup "symbol" with
           | some v => .str v
           | none => .obj fields)

/-- Result of the discovery loops: either the loop ran to completion (or hit a
`break`) with the accumulated symbol list, or an exception was raised with the
list in whatever state it had reached (Python's `except: pass` keeps the
partially mutated list). -/
inductive LoopRes where
  | done (symbols : List SymEntry)
  | raised (symbols : List SymEntry)
deriving DecidableEq

/-- The symbol list carried by a loop result, whether or not it raised. -/
def LoopRes.state : LoopRes → List SymEntry
  | .done s => s
  | .raised s => s

/-- Inner discovery loop (lines 374-379): iterate over `symbol_list[:3]`
(`take 3` applied by the caller), extract each symbol, append it if new, and
break once five symbols are collected. -/
def innerLoop (symbols : List SymEntry) : List SymEntry → LoopRes
  | [] => .done symbols
  | e :: rest =>
      match pyGetSymbol e with
      | .error _ => .raised symbols
      | .ok sym =>
          let symbols' := if sym ∈ symbols then symbols else symbols ++ [sym]
          if 5 ≤ symbols'.length then .done symbols'
          else innerLoop symbols' rest

/-- Outer discovery loop (lines 373-381): iterate over the exchanges map,
running the inner loop on the first three entries of each symbol list, and
break once five symbols are collected.  A raise propagates out of both loops
(to the `except: pass` on lines 382-383). -/
def outerLoop (symbols : List SymEntry) : List (String × List SymEntry) → LoopRes
  | [] => .done symbols
  | (_, symbol_list) :: rest =>
      match innerLoop symbols (symbol_list.take 3) with
      | .raised s => .raised s
      | .done s => if 5 ≤ s.length then .done s else outerLoop s rest

/-- The built-in default symbol list `["BTC-USD"]` (line 367). -/
def defaultSymbols : List SymEntry := [.str "BTC-USD"]

/-- Model of the symbol-discovery step of `performance_benchmark`
(lines 364-383).  `resp = none` models every case in which the loop body never
runs: non-200 status, unparsable JSON, or a payload without an `exchanges`
field.  `resp = some exchanges` gives the exchanges map in iteration order.
The `except: pass` swallows any raise and keeps the list as mutated so far. -/
def discoverSymbols (resp : Option (List (String × List SymEntry))) : List SymEntry :=
  match resp with
  | none => defaultSymbols
  | some exchanges => (outerLoop defaultSymbols exchanges).state

/-- Python's `min` over a nonempty list; the `[]` case is arbitrary (Python
would raise) and is never reached by `analyze`. -/
def pyMin (l : List ℚ) : ℚ :=
  match l with
  | [] => 0
  | x :: xs => xs.foldl min x

/-- Python's `max` over a nonempty list; the `[]` case is never reached. -/
def pyMax (l : List ℚ) : ℚ :=
  match l with
  | [] => 0
  | x :: xs => xs.foldl max x

/-- `statistics.median` on an already sorted list: the middle element for odd
length, the mean of the two middle elements for even length. -/
def pyMedian (sorted : List ℚ) : ℚ :=
  if sorted.length % 2 = 1 then sorted.getD (sorted.length / 2) 0
  else (sorted.getD (sorted.length / 2 - 1) 0 + sorted.getD (sorted.length / 2) 0) / 2

/-- The statistics dict built by `performance_benchmark` when at least one
request succeeded (lines 470-487), minus the `latency_stdev` float field (see
the file comment). -/
structure PerfStats where
  total_requests : Nat
  successful : Nat
  failed : Nat
  total_time_s : ℚ
  requests_per_sec : ℚ
  total_bytes : Nat
  throughput_mbps : ℚ
  latency_min : ℚ
  latency_max : ℚ
  latency_mean : ℚ
  latency_median : ℚ
  latency_p50 : ℚ
  latency_p90 : ℚ
  latency_p95 : ℚ
  latency_p99 : ℚ
deriving DecidableEq

/-- Result of the analysis step: the full statistics dict, or the degraded
dict `{'total_requests': n, 'successful': 0, 'failed': n, 'error': ...}`
emitted when no request succeeded (lines 488-494). -/
inductive BenchStats where
  | ok (stats : PerfStats)
  | degraded (total_requests : Nat) (successful : Nat) (failed : Nat) (error : String)
deriving DecidableEq

/-- `successful = [r for r in results if r['status'] == 200]` (line 463). -/
def successFilter (results : List RequestResult) : List RequestResult :=
  results.filter (fun r => r.status == 200)

/-- `failed = [r for r in results if r['status'] != 200]` (line 464). -/
def failedFilter (results : List RequestResult) : List RequestResult :=
  results.filter (fun r => !(r.status == 200))

/-- `latencies = [r['latency_ms'] for r in successful]` (line 465). -/
def successLatencies (results : List RequestResult) : List ℚ :=
  (successFilter results).map (fun r => r.latency_ms)

/-- The successful latencies after `latencies.sort()` (line 469). -/
def sortedLatencies (results : List RequestResult) : List ℚ :=
  (successLatencies results).insertionSort (· ≤ ·)

/-- Model of the result-analysis tail of `performance_benchmark`
(lines 463-494).  Percentile indices follow the source exactly: p50 uses the
unclamped index `n * 50 / 100`, while p90/p95/p99 clamp with `min _ (n - 1)`.
`statistics.mean` is the sum of the (sorted) latencies over their count. -/
def analyze (results : List RequestResult) (total_time : ℚ) : BenchStats :=
  if successLatencies results = [] then
    .degraded results.length 0 results.length "No successful requests"
  else
    .ok {
      total_requests := results.length
      successful := (successFilter results).length
      failed := (failedFilter results).length
      total_time_s := total_time
      requests_per_sec := (results.length : ℚ) / total_time
      total_bytes := ((results.map (fun r => r.bytes)).sum)
      throughput_mbps :=
        (((results.map (fun r => r.bytes)).sum : ℚ) * 8 / 1024 / 1024) / total_time
      latency_min := pyMin (sortedLatencies results)
      latency_max := pyMax (sortedLatencies results)
      latency_mean := (sortedLatencies results).sum / ((sortedLatencies results).length : ℚ)
      latency_median := pyMedian (sortedLatencies results)
      latency_p50 := (sortedLatencies results).getD
        ((sortedLatencies results).length * 50 / 100) 0
      latency_p90 := (sortedLatencies results).getD
        (min ((sortedLatencies results).length * 90 / 100) ((sortedLatencies results).length - 1)) 0
      latency_p95 := (sortedLatencies results).getD
        (min ((sortedLatencies results).length * 95 / 100) ((sortedLatencies results).length - 1)) 0
      latency_p99 := (sortedLatencies results).getD
        (min ((sortedLatencies results).length * 99 / 100) ((sortedLatencies results).length - 1)) 0 }

/-- A Python dict with string keys and numeric values, in insertion order. -/
abbrev PyDict := List (String × ℚ)

/-- `d.get(key, dflt)` on a numeric dict. -/
def dget (d : PyDict) (key : String) (dflt : ℚ) : ℚ :=
  match d.lookup key with
  | some v => v
  | none => dflt

/-- The compact `performance_summary` projection written by `save_results`
(lines 523-528): `perf_stats.get('latency_p99', -1)`,
`perf_stats.get('latency_mean', -1)`, `perf_stats.get('requests_per_sec', 0)`
and the success rate, which is `0` whenever the stats dict carries the
`error` marker.  On the degraded dict every latency key is absent, so p99 and
mean are recorded as `-1` and the throughput as `0`. -/
def performance_summary : BenchStats → PyDict
  | .ok s =>
      [("p99_latency_ms", s.latency_p99),
       ("mean_latency_ms", s.latency_mean),
       ("requests_per_sec", s.requests_per_sec),
       ("success_rate", (s.successful : ℚ) / (s.total_requests : ℚ) * 100)]
  | .degraded _ _ _ _ =>
      [("p99_latency_ms", -1),
       ("mean_latency_ms", -1),
       ("requests_per_sec", 0),
       ("success_rate", 0)]

/-- `curr_perf.get(key, dflt)` where `curr_perf` is the in-memory stats dict
handed to `_compare_with_file`: the listed numeric keys exist on the full
dict, the degraded dict only carries the three counts, everything else falls
back to the default. -/
def statsGet : BenchStats → String → ℚ → ℚ
  | .ok s, key, dflt =>
      if key = "latency_p99" then s.latency_p99
      else if key = "latency_mean" then s.latency_mean
      else if key = "requests_per_sec" then s.requests_per_sec
      else if key = "successful" then (s.successful : ℚ)
      else if key = "total_requests" then (s.total_requests : ℚ)
      else dflt
  | .degraded t su f _, key, dflt =>
      if key = "total_requests" then (t : ℚ)
      else if key = "successful" then (su : ℚ)
      else if key = "failed" then (f : ℚ)
      else dflt

/-- `'error' in curr_perf`: only the degraded stats dict carries the key. -/
def hasErrorKey : BenchStats → Bool
  | .ok _ => false
  | .degraded _ _ _ _ => true

/-- The comparator's fixed metric table (lines 612-617): display name, stats
key, and whether lower is better. -/
def comparatorMetrics : List (String × String × Bool) :=
  [("P99 Latency", "latency_p99", true),
   ("Mean Latency", "latency_mean", true),
   ("Requests/sec", "requests_per_sec", false),
   ("Success Rate", "successful", false)]

/-- `prev_val` extraction in the metrics loop (lines 619-625): the success
metric reads the stored `success_rate`; `requests_per_sec` is read directly;
the latency metrics try `f'{key}_ms'` and then the bare key, both with
default 0. -/
def prevVal (prev_perf : PyDict) (key : String) : ℚ :=
  if key = "successful" then dget prev_perf "success_rate" 0
  else if key = "requests_per_sec" then dget prev_perf "requests_per_sec" 0
  else dget prev_perf (key ++ "_ms") (dget prev_perf key 0)

/-- `curr_val` extraction in the metrics loop (lines 619-626): the success
metric recomputes the rate from the current stats dict unless it carries the
`error` marker; other metrics read the key with default 0. -/
def currVal (curr : BenchStats) (key : String) : ℚ :=
  if key = "successful" then
    (if hasErrorKey curr then 0
     else statsGet curr "successful" 0 / statsGet curr "total_requests" 1 * 100)
  else statsGet curr key 0

/-- The guarded percentage change of one metric (lines 628-629): computed as
`((curr - prev) / prev) * 100` only when both sides are strictly positive,
skipped (`none`) otherwise. -/
def metricChange (prev_perf : PyDict) (curr : BenchStats) (key : String) : Option ℚ :=
  if 0 < prevVal prev_perf key ∧ 0 < currVal curr key then
    some ((currVal curr key - prevVal prev_perf key) / prevVal prev_perf key * 100)
  else none

/-- The per-metric marker printed by the comparator. -/
inductive MetricSymbol where
  | improvedMark
  | regressedMark
  | neutralMark
deriving DecidableEq

/-- The marker choice (lines 631-639): improvement arrow when the change goes
the good way for the metric's polarity, a regression mark when it goes the
bad way by more than the significance threshold (3% against the baseline, 5%
against the previous run), a dash otherwise. -/
def metricFlag (is_baseline lower_is_better : Bool) (change : ℚ) : MetricSymbol :=
  let improved : Bool :=
    if lower_is_better then decide (change < 0) else decide (0 < change)
  let threshold : ℚ := if is_baseline then 3 else 5
  if improved then .improvedMark
  else if threshold < |change| then .regressedMark
  else .neutralMark

/-- The guarded p99 change used by the baseline verdict (line 646): zero when
the stored baseline p99 is not strictly positive, otherwise the percentage
change with the stored value as denominator (the source's `.get(..., 1)`
default is only reachable when the key is present, hence equal). -/
def p99Change (curr : BenchStats) (prev_perf : PyDict) : ℚ :=
  if 0 < dget prev_perf "p99_latency_ms" 0 then
    (statsGet curr "latency_p99" 0 - dget prev_perf "p99_latency_ms" 0)
      / dget prev_perf "p99_latency_ms" 1 * 100
  else 0

/-- The guarded requests-per-second change used by the baseline verdict
(line 647). -/
def rpsChange (curr : BenchStats) (prev_perf : PyDict) : ℚ :=
  if 0 < dget prev_perf "requests_per_sec" 0 then
    (statsGet curr "requests_per_sec" 0 - dget prev_perf "requests_per_sec" 0)
      / dget prev_perf "requests_per_sec" 1 * 100
  else 0

/-- Composite verdict of the baseline comparison. -/
inductive Verdict where
  | regression
  | improvement
  | similar
deriving DecidableEq

/-- The verdict chain of `_compare_with_file` for a baseline comparison
(lines 649-654): regression when p99 rose by more than 10% or throughput
dropped by more than 10%, improvement on the mirrored condition, similar
otherwise. -/
def baselineVerdict (curr : BenchStats) (prev_perf : PyDict) : Verdict :=
  if 10 < p99Change curr prev_perf ∨ rpsChange curr prev_perf < -10 then .regression
  else if p99Change curr prev_perf < -10 ∨ 10 < rpsChange curr prev_perf then .improvement
  else .similar

/-- Whether a file name matches the glob `benchmark_*.json` used by the
compare-only branch of `main` (line 921). -/
def benchGlob (name : String) : Bool :=
  ("benchmark_".data.isPrefixOf name.data) && (".json".data.isSuffixOf name.data)

/-- Byte-wise character order used to model Python's string sort. -/
def charLtB (a b : Char) : Bool := decide (a.val < b.val)

/-- Lexicographic order on character lists. -/
def lexLe : List Char → List Char → Bool
  | [], _ => true
  | _ :: _, [] => false
  | a :: as, b :: bs =>
      if charLtB a b then true
      else if charLtB b a then false
      else lexLe as bs

/-- Lexicographic order on strings, modelling Python's `sorted`. -/
def strLe (a b : String) : Prop := lexLe a.data b.data = true

instance : DecidableRel strLe := fun a b => instDecidableEqBool (lexLe a.data b.data) true

/-- Whether `pat` occurs as a contiguous sublist of `s`; models Python's
`pat in s` substring test. -/
def hasSub (pat : List Char) : List Char → Bool
  | [] => pat.isEmpty
  | c :: rest => pat.isPrefixOf (c :: rest) || hasSub pat rest

/-- `'baseline' in f` (line 575): the filter `compare_with_previous` applies
to exclude the baseline record from historical comparison.  The compare-only
branch of `main` applies no such filter. -/
def containsBaseline (f : String) : Bool := hasSub "baseline".data f.data

/-- Outcome of the compare-only branch of `main` (lines 914-980): either the
usage error (`sys.exit(1)` after the error message, no comparison performed)
or the comparison report over the last at most five matching files, followed
by `sys.exit(0)`. -/
inductive CompareOutcome where
  | usageError (exitCode : Nat)
  | report (shown : List String) (exitCode : Nat)
deriving DecidableEq

/-- Model of the compare-only branch (lines 914-980): glob the results
directory for `benchmark_*.json` (baseline not excluded), sort the names, and
demand at least two files before comparing; otherwise report the files
`files[-5:]` that feed the comparison table. -/
def compare_only (listing : List String) : CompareOutcome :=
  if ((listing.filter benchGlob).insertionSort strLe).length < 2 then
    .usageError 1
  else
    .report (((listing.filter benchGlob).insertionSort strLe).drop
      (((listing.filter benchGlob).insertionSort strLe).length - 5)) 0

/-- Ten successful outcomes whose latencies are the sorted list 1..10, the
worked example of the percentile specification. -/
def ex10 : List RequestResult :=
  [{ status := 200, latency_ms := 1, bytes := 0, content := none, error := none },
   { status := 200, latency_ms := 2, bytes := 0, content := none, error := none },
   { status := 200, latency_ms := 3, bytes := 0, content := none, error := none },
   { status := 200, latency_ms := 4, bytes := 0, content := none, error := none },
   { status := 200, latency_ms := 5, bytes := 0, content := none, error := none },
   { status := 200, latency_ms := 6, bytes := 0, content := none, error := none },
   { status := 200, latency_ms := 7, bytes := 0, content := none, error := none },
   { status := 200, latency_ms := 8, bytes := 0, content := none, error := none },
   { status := 200, latency_ms := 9, bytes := 0, content := none, error := none },
   { status := 200, latency_ms := 10, bytes := 0, content := none, error := none }]

/-- A single failed outcome, used to exercise the degraded summary branch. -/
def exFail : List RequestResult :=
  [{ status := 500, latency_ms := 3, bytes := 0, content := none,
     error := some "HTTP 500: Internal Server Error" }]

/-- The baseline projection `{p99: 10, rps: 1000}` of the comparator
example. -/
def exPrev : PyDict := [("p99_latency_ms", 10), ("requests_per_sec", 1000)]

/-- The current stats of the comparator example: p99 latency 12 ms,
950 requests per second; the remaining fields are irrelevant to the
verdict and set to neutral values. -/
def exCurrStats : PerfStats :=
  { total_requests := 100, successful := 100, failed := 0, total_time_s := 1,
    requests_per_sec := 950, total_bytes := 0, throughput_mbps := 0,
    latency_min := 0, latency_max := 0, latency_mean := 0, latency_median := 0,
    latency_p50 := 0, latency_p90 := 0, latency_p95 := 0, latency_p99 := 12 }

/-- The current summary of the comparator example. -/
def exCurr : BenchStats := .ok exCurrStats

/-- A results directory holding exactly one timestamped record next to a
baseline record: both names match the compare-only glob. -/
def exListing : List String :=
  ["benchmark_20240101_000000.json", "benchmark_baseline.json"]

/-! Helper lemmas about folded minima and maxima. -/

theorem foldl_min_le_init (a : ℚ) (l : List ℚ) : l.foldl min a ≤ a := by
  induction l generalizing a with
  | nil => exact le_refl a
  | cons b t ih => exact le_trans (ih (min a b)) (min_le_left a b)

theorem foldl_min_le_mem (a x : ℚ) (l : List ℚ) : x ∈ l → l.foldl min a ≤ x := by
  induction l generalizing a with
  | nil => intro hx; cases hx
  | cons b t ih =>
      intro hx
      rcases List.mem_cons.mp hx with h | h
      · subst h
        exact le_trans (foldl_min_le_init (min a x) t) (min_le_right a x)
      · exact ih (min a b) h

theorem init_le_foldl_max (a : ℚ) (l : List ℚ) : a ≤ l.foldl max a := by
  induction l generalizing a with
  | nil => exact le_refl a
  | cons b t ih => exact le_trans (le_max_left a b) (ih (max a b))

theorem mem_le_foldl_max (a x : ℚ) (l : List ℚ) : x ∈ l → x ≤ l.foldl max a := by
  induction l generalizing a with
  | nil => intro hx; cases hx
  | cons b t ih =>
      intro hx
      rcases List.mem_cons.mp hx with h | h
      · subst h
        exact le_trans (le_max_right a x) (init_le_foldl_max (max a x) t)
      · exact ih (max a b) h

theorem pyMin_le_mem (x : ℚ) (l : List ℚ) (hx : x ∈ l) : pyMin l ≤ x := by
  cases l with
  | nil => cases hx
  | cons a t =>
      rcases List.mem_cons.mp hx with h | h
      · subst h; exact foldl_min_le_init x t
      · exact foldl_min_le_mem a x t h

theorem mem_le_pyMax (x : ℚ) (l : List ℚ) (hx : x ∈ l) : x ≤ pyMax l := by
  cases l with
  | nil => cases hx
  | cons a t =>
      rcases List.mem_cons.mp hx with h | h
      · subst h; exact init_le_foldl_max x t
      · exact mem_le_foldl_max a x t h

/-- C2: for every list of collected outcomes the summary satisfies
`successful + failed = total_requests`, where `successful` counts the
status-200 outcomes and `failed` counts all others, both in the normal
summary and in the degraded zero-success summary. -/
theorem claim_C2_counts (results : List RequestResult) (T : ℚ) :
    (∀ s : PerfStats, analyze results T = .ok s →
        s.successful = (successFilter results).length ∧
        s.failed = (failedFilter results).length ∧
        s.total_requests = results.length ∧
        s.successful + s.failed = s.total_requests) ∧
    (∀ (t su f : Nat) (e : String), analyze results T = .degraded t su f e →
        su = (successFilter results).length ∧
        f = (failedFilter results).length ∧
        t = results.length ∧
        su + f = t) := by
  have hsum : (successFilter results).length + (failedFilter results).length
      = results.length := by
    unfold successFilter failedFilter
    exact (List.length_eq_length_filter_add
      (fun r : RequestResult => r.status == 200)).symm
  constructor
  · intro s hEq
    by_cases hL : successLatencies results = []
    · unfold analyze at hEq; rw [if_pos hL] at hEq; exact (BenchStats.noConfusion hEq)
    · unfold analyze at hEq; rw [if_neg hL] at hEq
      injection hEq with h'
      subst h'
      exact ⟨rfl, rfl, rfl, hsum⟩
  · intro t su f e hEq
    by_cases hL : successLatencies results = []
    · unfold analyze at hEq; rw [if_pos hL] at hEq
      injection hEq with h1 h2 h3 h4
      subst h1; subst h2; subst h3
      have hS : successFilter results = [] := by
        unfold successLatencies at hL
        exact List.map_eq_nil_iff.mp hL
      have hF : (failedFilter results).length = results.length := by
        rw [hS] at hsum
        simpa using hsum
      exact ⟨by rw [hS]; rfl, hF.symm, rfl, by omega⟩
    · unfold analyze at hEq; rw [if_neg hL] at hEq; exact (BenchStats.noConfusion hEq)

/-- C2 witness: the counts identity at a concrete all-success run and at a
concrete zero-success run. -/
theorem claim_C2_witness :
    (∃ s : PerfStats, analyze ex10 1 = BenchStats.ok s ∧
        s.successful + s.failed = s.total_requests) ∧
    (∃ (t su f : Nat) (e : String), analyze exFail 1 = BenchStats.degraded t su f e ∧
        su + f = t) := by
  constructor
  · exact ⟨_, rfl, ((claim_C2_counts ex10 1).1 _ rfl).2.2.2⟩
  · exact ⟨_, _, _, _, rfl, ((claim_C2_counts exFail 1).2 _ _ _ _ rfl).2.2.2⟩

/-- C5: the request executor is total over the modelled transport outcomes:
it always returns an outcome record; an HTTP error response yields that
status code with an explanatory error string; any other failure yields status
code 0, zero bytes and the exception's message; and the recorded latency is
nonnegative whenever the clock readings are ordered. -/
theorem claim_C5_executor_total (r : UrlOpen) (t_start t_end : ℚ)
    (h : t_start ≤ t_end) :
    0 ≤ (make_request r t_start t_end).latency_ms ∧
    (∀ (c : Nat) (reason : String), r = .httpError c reason →
        (make_request r t_start t_end).status = c ∧
        (make_request r t_start t_end).bytes = 0 ∧
        (make_request r t_start t_end).error =
          some ("HTTP " ++ toString c ++ ": " ++ reason)) ∧
    (∀ msg : String, r = .exnFailure msg →
        (make_request r t_start t_end).status = 0 ∧
        (make_request r t_start t_end).bytes = 0 ∧
        (make_request r t_start t_end).error = some msg) := by
  have hlat : (0 : ℚ) ≤ (t_end - t_start) * 1000 :=
    mul_nonneg (sub_nonneg.mpr h) (by norm_num)
  refine ⟨?_, ?_, ?_⟩
  · cases r <;> exact hlat
  · intro c reason hr; subst hr; exact ⟨rfl, rfl, rfl⟩
  · intro msg hr; subst hr; exact ⟨rfl, rfl, rfl⟩

/-- C5 witness: a concrete transport failure produces the status-0 outcome
with nonnegative latency. -/
theorem claim_C5_witness :
    0 ≤ (make_request (.exnFailure "timed out") 0 2).latency_ms ∧
    (make_request (.exnFailure "timed out") 0 2).status = 0 ∧
    (make_request (.exnFailure "timed out") 0 2).bytes = 0 ∧
    (make_request (.exnFailure "timed out") 0 2).error = some "timed out" := by
  have h := claim_C5_executor_total (.exnFailure "timed out") 0 2 (by norm_num)
  exact ⟨h.1, (h.2.2 "timed out" rfl).1, (h.2.2 "timed out" rfl).2.1,
    (h.2.2 "timed out" rfl).2.2⟩

/-- C4: in mixed mode the worker routes by `request_id % 3` (0 the symbols
endpoint, 1 the status endpoint, 2 a data query whose symbol is
`symbols[request_id % len(symbols)]`); with symbols `[A, B]` the first six
indices give Symbols, Status, Data(A), Symbols, Status, Data(B), and the
pattern repeats exactly. -/
theorem claim_C4_mixed_routing :
    (∀ (α : Type) (symbols : List α) (i : Nat),
        (i % 3 = 0 → workerRoute .mixedMode symbols i = some .symbolsUrl) ∧
        (i % 3 = 1 → workerRoute .mixedMode symbols i = some .statusUrl) ∧
        (i % 3 = 2 → ∀ s, symbols.get? (i % symbols.length) = some s →
            workerRoute .mixedMode symbols i = some (.dataUrl s))) ∧
    (∀ A B : String,
        workerRoute .mixedMode [A, B] 0 = some .symbolsUrl ∧
        workerRoute .mixedMode [A, B] 1 = some .statusUrl ∧
        workerRoute .mixedMode [A, B] 2 = some (.dataUrl A) ∧
        workerRoute .mixedMode [A, B] 3 = some .symbolsUrl ∧
        workerRoute .mixedMode [A, B] 4 = some .statusUrl ∧
        workerRoute .mixedMode [A, B] 5 = some (.dataUrl B) ∧
        (∀ i : Nat,
          workerRoute .mixedMode [A, B] (i + 6) = workerRoute .mixedMode [A, B] i)) := by
  have main : ∀ (α : Type) (symbols : List α) (i : Nat),
      (i % 3 = 0 → workerRoute .mixedMode symbols i = some .symbolsUrl) ∧
      (i % 3 = 1 → workerRoute .mixedMode symbols i = some .statusUrl) ∧
      (i % 3 = 2 → ∀ s, symbols.get? (i % symbols.length) = some s →
          workerRoute .mixedMode symbols i = some (.dataUrl s)) := by
    intro α symbols i
    refine ⟨?_, ?_, ?_⟩
    · intro h0; simp only [workerRoute]; rw [if_pos h0]
    · intro h1; simp only [workerRoute]; rw [if_neg (by omega), if_pos h1]
    · intro h2 s hs
      rcases List.get?_eq_some.mp hs with ⟨hlt, hget⟩
      have hne : ¬ symbols.length = 0 := by
        intro h0; rw [h0] at hlt; omega
      simp only [workerRoute]
      rw [if_neg (by omega), if_neg (by omega), dif_neg hne]
      exact congrArg (fun x => some (Route.dataUrl x)) hget
  refine ⟨main, ?_⟩
  intro A B
  refine ⟨rfl, rfl, by simp [workerRoute], rfl, rfl, by simp [workerRoute], ?_⟩
  intro i
  rcases (by omega : i % 3 = 0 ∨ i % 3 = 1 ∨ i % 3 = 2) with h | h | h
  · rw [(main String [A, B] (i + 6)).1 (by omega), (main String [A, B] i).1 h]
  · rw [(main String [A, B] (i + 6)).2.1 (by omega), (main String [A, B] i).2.1 h]
  · rcases (by omega : i % 2 = 0 ∨ i % 2 = 1) with h2 | h2
    · have e6 : ([A, B] : List String).get? ((i + 6) % ([A, B] : List String).length)
          = some A := by
        have hv : (i + 6) % ([A, B] : List String).length = 0 := by
          simp only [List.length_cons, List.length_nil]
          omega
        rw [hv]; rfl
      have e0 : ([A, B] : List String).get? (i % ([A, B] : List String).length)
          = some A := by
        have hv : i % ([A, B] : List String).length = 0 := by
          simp only [List.length_cons, List.length_nil]
          omega
        rw [hv]; rfl
      rw [(main String [A, B] (i + 6)).2.2 (by omega) A e6,
        (main String [A, B] i).2.2 h A e0]
    · have e6 : ([A, B] : List String).get? ((i + 6) % ([A, B] : List String).length)
          = some B := by
        have hv : (i + 6) % ([A, B] : List String).length = 1 := by
          simp only [List.length_cons, List.length_nil]
          omega
        rw [hv]; rfl
      have e0 : ([A, B] : List String).get? (i % ([A, B] : List String).length)
          = some B := by
        have hv : i % ([A, B] : List String).length = 1 := by
          simp only [List.length_cons, List.length_nil]
          omega
        rw [hv]; rfl
      rw [(main String [A, B] (i + 6)).2.2 (by omega) B e6,
        (main String [A, B] i).2.2 h B e0]

/-- C4 witness: concrete instances of the general routing rules. -/
theorem claim_C4_witness :
    workerRoute Mode.mixedMode (["ETH-USD"] : List String) 9 = some Route.symbolsUrl ∧
    workerRoute Mode.mixedMode (["ETH-USD", "ADA-USD"] : List String) 8
      = some (Route.dataUrl "ETH-USD") := by
  constructor
  · exact (claim_C4_mixed_routing.1 String ["ETH-USD"] 9).1 (by norm_num)
  · exact (claim_C4_mixed_routing.1 String ["ETH-USD", "ADA-USD"] 8).2.2
      (by norm_num) "ETH-USD" rfl

theorem sortedLatencies_length (results : List RequestResult) :
    (sortedLatencies results).length = (successLatencies results).length := by
  unfold sortedLatencies
  exact (List.perm_insertionSort _ _).length_eq

theorem sortedLatencies_sorted (results : List RequestResult) :
    (sortedLatencies results).Sorted (· ≤ ·) := by
  unfold sortedLatencies
  exact List.sorted_insertionSort _ _

/-- C1: the summary's percentile-at-rank value for p ∈ {50, 90, 95, 99} is
the sorted successful-latency list's element at index `n * p / 100` clamped to
`n - 1` (for p50 the source omits the clamp, which never binds because
`n * 50 / 100 ≤ n - 1`); in particular for the ten latencies 1..10, p90 = 10
and p50 = 6. -/
theorem claim_C1_percentile_rank :
    (∀ (results : List RequestResult) (T : ℚ) (s : PerfStats),
        analyze results T = .ok s →
        s.latency_p50 = (sortedLatencies results).getD
          (min ((sortedLatencies results).length * 50 / 100)
            ((sortedLatencies results).length - 1)) 0 ∧
        s.latency_p90 = (sortedLatencies results).getD
          (min ((sortedLatencies results).length * 90 / 100)
            ((sortedLatencies results).length - 1)) 0 ∧
        s.latency_p95 = (sortedLatencies results).getD
          (min ((sortedLatencies results).length * 95 / 100)
            ((sortedLatencies results).length - 1)) 0 ∧
        s.latency_p99 = (sortedLatencies results).getD
          (min ((sortedLatencies results).length * 99 / 100)
            ((sortedLatencies results).length - 1)) 0) ∧
    (∃ s : PerfStats, analyze ex10 1 = BenchStats.ok s ∧
        s.latency_p90 = 10 ∧ s.latency_p50 = 6) := by
  constructor
  · intro results T s hEq
    by_cases hL : successLatencies results = []
    · unfold analyze at hEq; rw [if_pos hL] at hEq; exact (BenchStats.noConfusion hEq)
    · unfold analyze at hEq; rw [if_neg hL] at hEq
      injection hEq with h'
      subst h'
      refine ⟨?_, rfl, rfl, rfl⟩
      have hn : 1 ≤ (sortedLatencies results).length := by
        rw [sortedLatencies_length]
        have := List.length_pos.mpr hL
        omega
      have hlt : (sortedLatencies results).length * 50 / 100
          < (sortedLatencies results).length :=
        Nat.div_lt_of_lt_mul (by omega)
      have h50 : (sortedLatencies results).length * 50 / 100
          ≤ (sortedLatencies results).length - 1 := by omega
      show (sortedLatencies results).getD
        ((sortedLatencies results).length * 50 / 100) 0 = _
      rw [min_eq_left h50]
  · exact ⟨_, rfl, by decide, by decide⟩

/-- C1 witness: the general percentile-index identity applied to the
concrete ten-latency run. -/
theorem claim_C1_witness :
    ∃ s : PerfStats, analyze ex10 1 = BenchStats.ok s ∧
      s.latency_p50 = (sortedLatencies ex10).getD
        (min ((sortedLatencies ex10).length * 50 / 100)
          ((sortedLatencies ex10).length - 1)) 0 :=
  ⟨_, rfl, (claim_C1_percentile_rank.1 ex10 1 _ rfl).1⟩

/-- C3: whenever at least one request succeeded, the summary's latency
fields, computed over the successful latencies only, satisfy
`min ≤ p50 ≤ p90 ≤ p95 ≤ p99 ≤ max`. -/
theorem claim_C3_latency_order (results : List RequestResult) (T : ℚ)
    (s : PerfStats) (hEq : analyze results T = .ok s) :
    s.latency_min ≤ s.latency_p50 ∧ s.latency_p50 ≤ s.latency_p90 ∧
    s.latency_p90 ≤ s.latency_p95 ∧ s.latency_p95 ≤ s.latency_p99 ∧
    s.latency_p99 ≤ s.latency_max := by
  by_cases hL : successLatencies results = []
  · unfold analyze at hEq; rw [if_pos hL] at hEq; exact (BenchStats.noConfusion hEq)
  · unfold analyze at hEq; rw [if_neg hL] at hEq
    injection hEq with h'
    subst h'
    dsimp only
    have hsorted := sortedLatencies_sorted results
    have hn : 1 ≤ (sortedLatencies results).length := by
      rw [sortedLatencies_length]
      have := List.length_pos.mpr hL
      omega
    have h50n : (sortedLatencies results).length * 50 / 100
        < (sortedLatencies results).length :=
      Nat.div_lt_of_lt_mul (by omega)
    have h90n : min ((sortedLatencies results).length * 90 / 100)
        ((sortedLatencies results).length - 1) < (sortedLatencies results).length := by
      have := min_le_right ((sortedLatencies results).length * 90 / 100)
        ((sortedLatencies results).length - 1)
      omega
    have h95n : min ((sortedLatencies results).length * 95 / 100)
        ((sortedLatencies results).length - 1) < (sortedLatencies results).length := by
      have := min_le_right ((sortedLatencies results).length * 95 / 100)
        ((sortedLatencies results).length - 1)
      omega
    have h99n : min ((sortedLatencies results).length * 99 / 100)
        ((sortedLatencies results).length - 1) < (sortedLatencies results).length := by
      have := min_le_right ((sortedLatencies results).length * 99 / 100)
        ((sortedLatencies results).length - 1)
      omega
    have i5090 : (sortedLatencies results).length * 50 / 100
        ≤ min ((sortedLatencies results).length * 90 / 100)
            ((sortedLatencies results).length - 1) := by
      refine le_min (Nat.div_le_div_right (by omega)) (by omega)
    have i9095 : min ((sortedLatencies results).length * 90 / 100)
          ((sortedLatencies results).length - 1)
        ≤ min ((sortedLatencies results).length * 95 / 100)
            ((sortedLatencies results).length - 1) :=
      min_le_min (Nat.div_le_div_right (by omega)) (le_refl _)
    have i9599 : min ((sortedLatencies results).length * 95 / 100)
          ((sortedLatencies results).length - 1)
        ≤ min ((sortedLatencies results).length * 99 / 100)
            ((sortedLatencies results).length - 1) :=
      min_le_min (Nat.div_le_div_right (by omega)) (le_refl _)
    rw [List.getD_eq_get (sortedLatencies results) 0 h50n,
      List.getD_eq_get (sortedLatencies results) 0 h90n,
      List.getD_eq_get (sortedLatencies results) 0 h95n,
      List.getD_eq_get (sortedLatencies results) 0 h99n]
    refine ⟨?_, ?_, ?_, ?_, ?_⟩
    · exact pyMin_le_mem _ _ (List.get_mem (sortedLatencies results) _ h50n)
    · exact hsorted.rel_get_of_le i5090
    · exact hsorted.rel_get_of_le i9095
    · exact hsorted.rel_get_of_le i9599
    · exact mem_le_pyMax _ _ (List.get_mem (sortedLatencies results) _ h99n)

/-- C3 witness: the latency ordering chain at the concrete ten-latency
run. -/
theorem claim_C3_witness :
    ∃ s : PerfStats, analyze ex10 1 = BenchStats.ok s ∧
      s.latency_min ≤ s.latency_p50 ∧ s.latency_p50 ≤ s.latency_p90 ∧
      s.latency_p90 ≤ s.latency_p95 ∧ s.latency_p95 ≤ s.latency_p99 ∧
      s.latency_p99 ≤ s.latency_max :=
  ⟨_, rfl, claim_C3_latency_order ex10 1 _ rfl⟩

theorem innerLoop_state_head (l : List SymEntry) :
    ∀ symbols : List SymEntry, symbols ≠ [] →
      (innerLoop symbols l).state ≠ [] ∧
      (innerLoop symbols l).state.head? = symbols.head? := by
  induction l with
  | nil => intro syms h; exact ⟨h, rfl⟩
  | cons e rest ih =>
      intro syms h
      cases hge : pyGetSymbol e with
      | error msg =>
          simp only [innerLoop, hge]
          exact ⟨h, rfl⟩
      | ok sym =>
          simp only [innerLoop, hge]
          by_cases hmem : sym ∈ syms
          · rw [if_pos hmem]
            by_cases h5 : 5 ≤ syms.length
            · rw [if_pos h5]; exact ⟨h, rfl⟩
            · rw [if_neg h5]; exact ih syms h
          · rw [if_neg hmem]
            have hne : syms ++ [sym] ≠ [] := by simp
            have hhead : (syms ++ [sym]).head? = syms.head? := by
              cases syms with
              | nil => exact absurd rfl h
              | cons a t => rfl
            by_cases h5 : 5 ≤ (syms ++ [sym]).length
            · rw [if_pos h5]
              exact ⟨hne, hhead⟩
            · rw [if_neg h5]
              have hr := ih (syms ++ [sym]) hne
              exact ⟨hr.1, hr.2.trans hhead⟩

theorem outerLoop_state_head :
    ∀ (exchanges : List (String × List SymEntry)) (symbols : List SymEntry),
      symbols ≠ [] →
      (outerLoop symbols exchanges).state ≠ [] ∧
      (outerLoop symbols exchanges).state.head? = symbols.head? := by
  intro exchanges
  induction exchanges with
  | nil => intro syms h; exact ⟨h, rfl⟩
  | cons ex rest ih =>
      intro syms h
      obtain ⟨name, sl⟩ := ex
      have hi := innerLoop_state_head (sl.take 3) syms h
      cases hinner : innerLoop syms (sl.take 3) with
      | raised s =>
          rw [hinner] at hi
          simp only [LoopRes.state] at hi
          simp only [outerLoop, hinner, LoopRes.state]
          exact hi
      | done s =>
          rw [hinner] at hi
          simp only [LoopRes.state] at hi
          simp only [outerLoop, hinner]
          by_cases h5 : 5 ≤ s.length
          · rw [if_pos h5]
            simp only [LoopRes.state]
            exact hi
          · rw [if_neg h5]
            have hr := ih s hi.1
            exact ⟨hr.1, hr.2.trans hi.2⟩

theorem discoverSymbols_head (resp : Option (List (String × List SymEntry))) :
    (discoverSymbols resp).head? = some (.str "BTC-USD") ∧
    discoverSymbols resp ≠ [] := by
  cases resp with
  | none => exact ⟨rfl, by simp [discoverSymbols, defaultSymbols]⟩
  | some exchanges =>
      have h := outerLoop_state_head exchanges defaultSymbols (by simp [defaultSymbols])
      exact ⟨h.2, h.1⟩

/-- C6: the symbol list used by the benchmark always contains at least one
entry and starts with the built-in default "BTC-USD"; when discovery fails
outright the list is exactly `["BTC-USD"]`, so Data mode routes every
request index to the default symbol, Mixed mode does so on every data turn,
and the index-mod-length selection never raises for any mode. -/
theorem claim_C6_default_symbol :
    (∀ resp, 1 ≤ (discoverSymbols resp).length ∧
        (discoverSymbols resp).head? = some (.str "BTC-USD")) ∧
    discoverSymbols none = [SymEntry.str "BTC-USD"] ∧
    (∀ i, workerRoute .dataMode (discoverSymbols none) i
        = some (.dataUrl (.str "BTC-USD"))) ∧
    (∀ i, i % 3 = 2 → workerRoute .mixedMode (discoverSymbols none) i
        = some (.dataUrl (.str "BTC-USD"))) ∧
    (∀ resp mode i, workerRoute mode (discoverSymbols resp) i ≠ none) := by
  refine ⟨?_, rfl, ?_, ?_, ?_⟩
  · intro resp
    have h := discoverSymbols_head resp
    have := List.length_pos.mpr h.2
    exact ⟨by omega, h.1⟩
  · intro i
    show workerRoute .dataMode [SymEntry.str "BTC-USD"] i = _
    simp [workerRoute]
  · intro i h2
    have h0 : ¬ i % 3 = 0 := by omega
    have h1 : ¬ i % 3 = 1 := by omega
    show workerRoute .mixedMode [SymEntry.str "BTC-USD"] i = _
    simp [workerRoute, h0, h1]
  · intro resp mode i
    have hpos : ¬ (discoverSymbols resp).length = 0 := by
      have h := List.length_pos.mpr (discoverSymbols_head resp).2
      omega
    cases mode with
    | symbolsMode => simp [workerRoute]
    | apiMode =>
        by_cases h2 : i % 2 = 0
        · simp [workerRoute, h2]
        · simp [workerRoute, h2]
    | dataMode =>
        simp only [workerRoute]
        rw [dif_neg hpos]
        simp
    | mixedMode =>
        rcases (by omega : i % 3 = 0 ∨ i % 3 = 1 ∨ i % 3 = 2) with h | h | h
        · simp [workerRoute, h]
        · have h0 : ¬ i % 3 = 0 := by omega
          simp [workerRoute, h0, h]
        · have h0 : ¬ i % 3 = 0 := by omega
          have h1 : ¬ i % 3 = 1 := by omega
          simp only [workerRoute]
          rw [if_neg h0, if_neg h1, dif_neg hpos]
          simp

/-- C6 witness: the fallback routing at concrete request indices. -/
theorem claim_C6_witness :
    1 ≤ (discoverSymbols none).length ∧
    workerRoute Mode.dataMode (discoverSymbols none) 7
      = some (Route.dataUrl (SymEntry.str "BTC-USD")) ∧
    workerRoute Mode.mixedMode (discoverSymbols none) 5
      = some (Route.dataUrl (SymEntry.str "BTC-USD")) ∧
    workerRoute Mode.mixedMode (discoverSymbols none) 4 ≠ none :=
  ⟨(claim_C6_default_symbol.1 none).1, claim_C6_default_symbol.2.2.1 7,
    claim_C6_default_symbol.2.2.2.1 5 (by norm_num),
    claim_C6_default_symbol.2.2.2.2 none Mode.mixedMode 4⟩

/-- Discovery input in which every exchange's symbol list holds plain
strings, the format the symbols endpoint currently serves. -/
def allStrings (exchanges : List (String × List SymEntry)) : Prop :=
  ∀ ex ∈ exchanges, ∀ e ∈ ex.2, entryIsStr e = true

theorem innerLoop_allStr_ne (syms : List SymEntry) (sl : List SymEntry)
    (hstr : ∀ e ∈ sl, entryIsStr e = true) (hne : sl ≠ []) :
    innerLoop syms (sl.take 3) = .raised syms := by
  cases sl with
  | nil => exact absurd rfl hne
  | cons e rest =>
      have he : entryIsStr e = true := hstr e (by simp)
      cases e with
      | obj fields => simp [entryIsStr] at he
      | str s =>
          show innerLoop syms (SymEntry.str s :: rest.take 2) = .raised syms
          simp only [innerLoop, pyGetSymbol]

theorem outerLoop_allStr :
    ∀ (exchanges : List (String × List SymEntry)), allStrings exchanges →
      ∀ syms, (outerLoop syms exchanges).state = syms := by
  intro exchanges
  induction exchanges with
  | nil => intro _ syms; rfl
  | cons ex rest ih =>
      intro hstr syms
      obtain ⟨name, sl⟩ := ex
      have hstr_head : ∀ e ∈ sl, entryIsStr e = true :=
        fun e he => hstr (name, sl) (by simp) e he
      have hstr_rest : allStrings rest :=
        fun ex2 hex2 => hstr ex2 (List.mem_cons_of_mem _ hex2)
      by_cases hsl : sl = []
      · subst hsl
        show (match innerLoop syms (List.take 3 []) with
          | .raised s => LoopRes.raised s
          | .done s => if 5 ≤ s.length then LoopRes.done s else outerLoop s rest).state
            = syms
        show (if 5 ≤ syms.length then LoopRes.done syms else outerLoop syms rest).state
          = syms
        by_cases h5 : 5 ≤ syms.length
        · rw [if_pos h5]; rfl
        · rw [if_neg h5]; exact ih hstr_rest syms
      · have hraised := innerLoop_allStr_ne syms sl hstr_head hsl
        simp only [outerLoop, hraised]
        rfl

theorem outerLoop_allStr_raised :
    ∀ (exchanges : List (String × List SymEntry)), allStrings exchanges →
      (∃ ex ∈ exchanges, ex.2 ≠ []) →
      ∀ syms : List SymEntry, syms.length < 5 →
        outerLoop syms exchanges = .raised syms := by
  intro exchanges
  induction exchanges with
  | nil =>
      intro _ hex syms _
      rcases hex with ⟨ex, hmem, _⟩
      cases hmem
  | cons ex rest ih =>
      intro hstr hex syms h5
      obtain ⟨name, sl⟩ := ex
      have hstr_head : ∀ e ∈ sl, entryIsStr e = true :=
        fun e he => hstr (name, sl) (by simp) e he
      have hstr_rest : allStrings rest :=
        fun ex2 hex2 => hstr ex2 (List.mem_cons_of_mem _ hex2)
      by_cases hsl : sl = []
      · subst hsl
        have hex' : ∃ ex2 ∈ rest, ex2.2 ≠ [] := by
          rcases hex with ⟨ex2, hmem, hne⟩
          rcases List.mem_cons.mp hmem with hcase | hcase
          · subst hcase; exact absurd rfl hne
          · exact ⟨ex2, hcase, hne⟩
        show (match innerLoop syms (List.take 3 []) with
          | .raised s => LoopRes.raised s
          | .done s => if 5 ≤ s.length then LoopRes.done s else outerLoop s rest)
            = .raised syms
        show (if 5 ≤ syms.length then LoopRes.done syms else outerLoop syms rest)
          = .raised syms
        rw [if_neg (by omega)]
        exact ih hstr_rest hex' syms h5
      · have hraised := innerLoop_allStr_ne syms sl hstr_head hsl
        simp only [outerLoop, hraised]

/-- C10: when the symbols endpoint returns exchanges whose symbol lists are
plain strings, the per-entry `.get` extraction raises (whenever any list is
nonempty), the raise is swallowed, and the symbol list for the run remains
exactly `["BTC-USD"]`, so Data mode keeps cycling over the single default
symbol regardless of how many symbols discovery returned. -/
theorem claim_C10_string_symbols_swallowed :
    ∀ exchanges : List (String × List SymEntry), allStrings exchanges →
      discoverSymbols (some exchanges) = [SymEntry.str "BTC-USD"] ∧
      ((∃ ex ∈ exchanges, ex.2 ≠ []) →
        outerLoop [SymEntry.str "BTC-USD"] exchanges
          = .raised [SymEntry.str "BTC-USD"]) ∧
      (∀ i, workerRoute .dataMode (discoverSymbols (some exchanges)) i
          = some (.dataUrl (.str "BTC-USD"))) := by
  intro exchanges hstr
  have hstate : discoverSymbols (some exchanges) = [SymEntry.str "BTC-USD"] := by
    show (outerLoop defaultSymbols exchanges).state = _
    rw [outerLoop_allStr exchanges hstr defaultSymbols]
    rfl
  refine ⟨hstate, ?_, ?_⟩
  · intro hex
    exact outerLoop_allStr_raised exchanges hstr hex [SymEntry.str "BTC-USD"] (by simp)
  · intro i
    rw [hstate]
    simp [workerRoute]

/-- C10 witness: a two-symbol string-format response leaves the run symbol
list at the default and the inner extraction raise is observable. -/
theorem claim_C10_witness :
    discoverSymbols
        (some [("coinbase", [SymEntry.str "ETH-USD", SymEntry.str "ADA-USD"])])
      = [SymEntry.str "BTC-USD"] ∧
    outerLoop [SymEntry.str "BTC-USD"]
        [("coinbase", [SymEntry.str "ETH-USD", SymEntry.str "ADA-USD"])]
      = LoopRes.raised [SymEntry.str "BTC-USD"] := by
  have h := claim_C10_string_symbols_swallowed
    [("coinbase", [SymEntry.str "ETH-USD", SymEntry.str "ADA-USD"])]
    (by unfold allStrings; decide)
  exact ⟨h.1, h.2.1 (by decide)⟩

/-- C7: for every metric of the comparator's fixed set the percentage change
is `((current - previous) / previous) * 100`, computed only when both sides
are strictly positive and skipped entirely otherwise; the degraded
zero-success summary is saved with p99 and mean recorded as -1 and success
rate 0, and every metric of a comparison against it is skipped, so no
division is ever performed on it. -/
theorem claim_C7_comparator_skip :
    (∀ (prev_perf : PyDict) (curr : BenchStats) (key : String),
        (prevVal prev_perf key ≤ 0 ∨ currVal curr key ≤ 0 →
          metricChange prev_perf curr key = none) ∧
        (0 < prevVal prev_perf key → 0 < currVal curr key →
          metricChange prev_perf curr key =
            some ((currVal curr key - prevVal prev_perf key)
              / prevVal prev_perf key * 100))) ∧
    (∀ (t : Nat) (e : String),
        performance_summary (.degraded t 0 t e) =
          [("p99_latency_ms", -1), ("mean_latency_ms", -1),
           ("requests_per_sec", 0), ("success_rate", 0)]) ∧
    (∀ (t : Nat) (e : String) (curr : BenchStats) (m : String × String × Bool),
        m ∈ comparatorMetrics →
        metricChange (performance_summary (.degraded t 0 t e)) curr m.2.1 = none) := by
  have hskip : ∀ (prev_perf : PyDict) (curr : BenchStats) (key : String),
      prevVal prev_perf key ≤ 0 ∨ currVal curr key ≤ 0 →
      metricChange prev_perf curr key = none := by
    intro prev curr key h
    have hcond : ¬(0 < prevVal prev key ∧ 0 < currVal curr key) := by
      rcases h with h | h
      · exact fun hc => absurd hc.1 (not_lt.mpr h)
      · exact fun hc => absurd hc.2 (not_lt.mpr h)
    unfold metricChange
    rw [if_neg hcond]
  refine ⟨fun prev curr key => ⟨hskip prev curr key, ?_⟩, fun t e => rfl, ?_⟩
  · intro hp hc
    unfold metricChange
    rw [if_pos ⟨hp, hc⟩]
  · intro t e curr m hm
    have hproj : performance_summary (BenchStats.degraded t 0 t e) =
        [("p99_latency_ms", -1), ("mean_latency_ms", -1),
         ("requests_per_sec", 0), ("success_rate", 0)] := rfl
    apply hskip
    left
    rw [hproj]
    fin_cases hm <;> decide

/-- C7 witness: against the degraded summary every metric is skipped, while
against the example baseline the throughput change is computed by the
formula. -/
theorem claim_C7_witness :
    metricChange
        (performance_summary (BenchStats.degraded 5 0 5 "No successful requests"))
        (BenchStats.ok exCurrStats) "requests_per_sec" = none ∧
    metricChange exPrev (BenchStats.ok exCurrStats) "requests_per_sec"
      = some ((currVal (BenchStats.ok exCurrStats) "requests_per_sec"
          - prevVal exPrev "requests_per_sec")
            / prevVal exPrev "requests_per_sec" * 100) := by
  constructor
  · exact claim_C7_comparator_skip.2.2 5 "No successful requests"
      (BenchStats.ok exCurrStats) ("Requests/sec", "requests_per_sec", false)
      (by decide)
  · exact (claim_C7_comparator_skip.1 exPrev (BenchStats.ok exCurrStats)
      "requests_per_sec").2 (by decide) (by decide)

/-- C8: the composite baseline verdict is regression exactly when the p99
change exceeds +10% or the throughput change is below -10%, improvement
exactly when that fails and the mirrored condition holds, similar otherwise;
on baseline {p99: 10, rps: 1000} versus current {p99: 12, rps: 950} the +20%
p99 change yields the regression verdict, the -5% throughput change does not
alone trigger it, and the throughput metric is flagged per-metric at the 3%
baseline significance threshold. -/
theorem claim_C8_baseline_verdict :
    (∀ (curr : BenchStats) (prev_perf : PyDict),
        (baselineVerdict curr prev_perf = .regression ↔
          (10 < p99Change curr prev_perf ∨ rpsChange curr prev_perf < -10)) ∧
        (baselineVerdict curr prev_perf = .improvement ↔
          (¬(10 < p99Change curr prev_perf ∨ rpsChange curr prev_perf < -10) ∧
            (p99Change curr prev_perf < -10 ∨ 10 < rpsChange curr prev_perf))) ∧
        (baselineVerdict curr prev_perf = .similar ↔
          (¬(10 < p99Change curr prev_perf ∨ rpsChange curr prev_perf < -10) ∧
            ¬(p99Change curr prev_perf < -10 ∨ 10 < rpsChange curr prev_perf)))) ∧
    (p99Change exCurr exPrev = 20 ∧
     rpsChange exCurr exPrev = -5 ∧
     baselineVerdict exCurr exPrev = .regression ∧
     ¬ rpsChange exCurr exPrev < -10 ∧
     metricChange exPrev exCurr "requests_per_sec" = some (-5) ∧
     metricFlag true false (-5) = .regressedMark) := by
  have hp : p99Change exCurr exPrev = 20 := by
    have h : p99Change exCurr exPrev = ((12 : ℚ) - 10) / 10 * 100 := rfl
    rw [h]; norm_num
  have hr : rpsChange exCurr exPrev = -5 := by
    have h : rpsChange exCurr exPrev = ((950 : ℚ) - 1000) / 1000 * 100 := rfl
    rw [h]; norm_num
  constructor
  · intro curr prev
    unfold baselineVerdict
    by_cases h1 : (10 < p99Change curr prev ∨ rpsChange curr prev < -10)
    · rw [if_pos h1]
      simp [h1]
    · rw [if_neg h1]
      by_cases h2 : (p99Change curr prev < -10 ∨ 10 < rpsChange curr prev)
      · rw [if_pos h2]
        simp [h1, h2]
      · rw [if_neg h2]
        simp [h1, h2]
  · refine ⟨hp, hr, ?_, ?_, ?_, ?_⟩
    · unfold baselineVerdict
      rw [if_pos (Or.inl (by rw [hp]; norm_num))]
    · rw [hr]; norm_num
    · have hpv : prevVal exPrev "requests_per_sec" = 1000 := by decide
      have hcv : currVal exCurr "requests_per_sec" = 950 := by decide
      unfold metricChange
      rw [hpv, hcv, if_pos (by norm_num)]
      simp only [Option.some.injEq]
      norm_num
    · decide

/-- C8 witness: the verdict characterisation applied at the example
baseline. -/
theorem claim_C8_witness :
    baselineVerdict exCurr exPrev = Verdict.regression :=
  (claim_C8_baseline_verdict.1 exCurr exPrev).1.mpr
    (Or.inl (by rw [claim_C8_baseline_verdict.2.1]; norm_num))

/-- C9 counterexample: a results directory holding one timestamped record
next to a baseline record has fewer than two non-baseline records, yet the
compare-only branch counts the baseline file (its glob does not exclude
`baseline`), finds two files, performs the comparison and does not report the
usage error. -/
theorem claim_C9_counterexample :
    (exListing.filter (fun f => benchGlob f && !(containsBaseline f))).length < 2 ∧
    compare_only exListing
      = CompareOutcome.report
          ["benchmark_20240101_000000.json", "benchmark_baseline.json"] 0 ∧
    compare_only exListing ≠ CompareOutcome.usageError 1 := by
  refine ⟨by decide, by decide, by decide⟩

/-- C9 (amended): when fewer than two files matching `benchmark_*.json`
exist in the results directory — a baseline record stored there counted
among them — the compare-only operation reports the usage error, exits with
failure code 1 and performs no comparison. -/
theorem claim_C9_compare_only_min_records (listing : List String)
    (h : (listing.filter benchGlob).length < 2) :
    compare_only listing = .usageError 1 := by
  have hlen : ((listing.filter benchGlob).insertionSort strLe).length
      = (listing.filter benchGlob).length :=
    (List.perm_insertionSort _ _).length_eq
  unfold compare_only
  rw [if_pos (by rw [hlen]; exact h)]

/-- C9 witness: the empty results directory yields the usage error. -/
theorem claim_C9_witness :
    compare_only [] = CompareOutcome.usageError 1 :=
  claim_C9_compare_only_min_records [] (by decide)

end ApiBenchmark
